import Mathlib

/-!
Verification of the Latte video-diffusion backbone
(`opensora/models/diffusion/latte/modeling_latte.py`).

Modelling conventions.
A tensor is a structure holding its dimension sizes together with a total
data function on natural-number indices; entries outside the stated
dimensions are junk and are never relied upon by any theorem.  All
arithmetic is exact rational arithmetic.  External torch primitives
(layer norm, SiLU, the fused scaled-dot-product-attention kernel, the
exponential inside softmax) enter as explicit function parameters;
everything written in the repository file itself is translated
concretely.  Operations that can raise at run time (tensor concatenation
with mismatched shapes, the `assert` in `unpatchify`, einops rearranges
with a non-dividing axis) return `Option`, with `none` for the raising
run.
-/

/-- A 5-D video tensor `(batch, frame, channel, height, width)`. -/
structure Tens5 where
  b : ℕ
  f : ℕ
  c : ℕ
  h : ℕ
  w : ℕ
  data : ℕ → ℕ → ℕ → ℕ → ℕ → ℚ

/-- A 3-D token tensor `(batch·frame, token, hidden)`. -/
structure Tens3 where
  n : ℕ
  t : ℕ
  d : ℕ
  data : ℕ → ℕ → ℕ → ℚ

/-- A 4-D image tensor `(batch·frame, channel, height, width)`. -/
structure Tens4 where
  n : ℕ
  c : ℕ
  h : ℕ
  w : ℕ
  data : ℕ → ℕ → ℕ → ℕ → ℚ

/-- `x[:k]` on the batch axis of a 5-D tensor (Python slicing clamps). -/
def slice0 (x : Tens5) (k : ℕ) : Tens5 :=
  ⟨min k x.b, x.f, x.c, x.h, x.w, x.data⟩

/-- `torch.cat([x, y], dim=0)`.  Call sites in `forward_with_cfg`
concatenate equally-shaped tensors, so the non-batch dimensions are taken
from `x`. -/
def cat0 (x y : Tens5) : Tens5 :=
  ⟨x.b + y.b, x.f, x.c, x.h, x.w,
   fun i => if i < x.b then x.data i else y.data (i - x.b)⟩

/-- `x[:, :k]` — a slice of the second axis, which for the 5-D video
layout is the FRAME axis (this is what line 668 of the source actually
slices). -/
def slice1 (x : Tens5) (k : ℕ) : Tens5 :=
  ⟨x.b, min k x.f, x.c, x.h, x.w, x.data⟩

/-- `x[:, k:]` — the complementary frame-axis slice. -/
def slice1from (x : Tens5) (k : ℕ) : Tens5 :=
  ⟨x.b, x.f - k, x.c, x.h, x.w, fun bi fi => x.data bi (k + fi)⟩

/-- One chunk `x[start : start+len]` of a batch-axis `torch.split`. -/
def narrow0 (x : Tens5) (start len : ℕ) : Tens5 :=
  ⟨len, x.f, x.c, x.h, x.w, fun i => x.data (start + i)⟩

/-- `uncond_eps + cfg_scale * (cond_eps - uncond_eps)` (line 672);
the two arguments have identical shapes at the call site. -/
def cfgCombine (scale : ℚ) (condE uncondE : Tens5) : Tens5 :=
  ⟨uncondE.b, uncondE.f, uncondE.c, uncondE.h, uncondE.w,
   fun bi fi ci i j =>
     uncondE.data bi fi ci i j +
       scale * (condE.data bi fi ci i j - uncondE.data bi fi ci i j)⟩

/-- `torch.cat([x, y], dim=2)` — concatenation along the CHANNEL axis.
torch raises a `RuntimeError` unless every other dimension matches, so
the result is an `Option`. -/
def cat2 (x y : Tens5) : Option Tens5 :=
  if x.b = y.b ∧ x.f = y.f ∧ x.h = y.h ∧ x.w = y.w then
    some ⟨x.b, x.f, x.c + y.c, x.h, x.w,
      fun bi fi ci i j =>
        if ci < x.c then x.data bi fi ci i j else y.data bi fi (ci - x.c) i j⟩
  else none

/-- `Latte.forward_with_cfg` (lines 657–674), with the backbone
`self.forward` abstracted as the parameter `fwd` (it is a separate method
of the same class; every claim about the wrapper holds for an arbitrary
backbone).  Steps, in source order: take the first half of the batch,
duplicate it, run the backbone once, slice `model_out[:, :in_channels]`
and `model_out[:, in_channels:]` (the second axis — the frame axis),
split the first slice into conditional/unconditional batch halves with
`torch.split(eps, len(eps) // 2, dim=0)` (unpacking into exactly two
chunks requires the batch to split evenly), combine them with the
guidance scale, re-duplicate, and `torch.cat([eps, rest], dim=2)` along
the channel axis. -/
def forwardWithCfg (fwd : Tens5 → Option Tens5) (inChannels : ℕ)
    (cfgScale : ℚ) (x : Tens5) : Option Tens5 :=
  let half := slice0 x (x.b / 2)
  let combined := cat0 half half
  match fwd combined with
  | none => none
  | some modelOut =>
    let eps := slice1 modelOut inChannels
    let rest := slice1from modelOut inChannels
    let n := eps.b / 2
    if eps.b = 2 * n then
      let condEps := narrow0 eps 0 n
      let uncondEps := narrow0 eps n n
      let halfEps := cfgCombine cfgScale condEps uncondEps
      cat2 (cat0 halfEps halfEps) rest
    else none

/-- A shape-contract-respecting backbone for concrete runs: it returns a
tensor of the input shape with 4 output channels (`learn_sigma = False`,
`in_channels = 4`, so out channels equal in channels). -/
def fwd4 : Tens5 → Option Tens5 :=
  fun v => some ⟨v.b, v.f, 4, v.h, v.w, fun _ _ _ _ _ => 0⟩

/-- The repository's own smoke-test video shape with an even batch:
`(2, 16, 4, 4, 4)` — batch 2, 16 frames, 4 latent channels. -/
def cx0 : Tens5 := ⟨2, 16, 4, 4, 4, fun _ _ _ _ _ => 1⟩

/-- Claim C1: `forward_with_cfg` is claimed to split the backbone output
CHANNEL-wise and to return a tensor of the input shape.  On the concrete
input `cx0` of shape (2, 16, 4, 4, 4) with `in_channels = 4` the code
instead slices the first 4 FRAMES (dim 1) as the guided part, leaving 12
frames as pass-through, and then concatenates the two along dim 2, which
raises a shape mismatch (4 ≠ 12 on the frame axis): the call returns an
error (`none`), not a tensor of the input shape. -/
theorem c1_cfg_eval : forwardWithCfg fwd4 4 7 cx0 = none := rfl

/-- Concrete input for the `cfg_scale = 1.0` contract of claim C6. -/
def cx6 : Tens5 := ⟨2, 16, 4, 2, 2, fun _ _ _ _ _ => 2⟩

/-- Claim C6: with `cfg_scale = 1.0` the wrapper is claimed to reduce to
the plain backbone run on the duplicated conditional half, restricted to
the guided channel slice.  On the concrete input `cx6` the plain
backbone run on the duplicated conditional half succeeds (second
conjunct), yet `forward_with_cfg` at scale 1 raises the dim-2
concatenation shape error (first conjunct), because it sliced frames —
so it cannot equal any restriction of the plain run. -/
theorem c6_cfg_scale_one_eval :
    forwardWithCfg fwd4 4 1 cx6 = none ∧
      (fwd4 (cat0 (slice0 cx6 (cx6.b / 2)) (slice0 cx6 (cx6.b / 2)))).isSome = true :=
  ⟨rfl, rfl⟩

/-- Pointwise sum of two conditioning tensors (`a + b` on `(n, d)`
tensors, as in `timestep_spatial + y_spatial`). -/
def addV (a b : ℕ → ℕ → ℚ) : ℕ → ℕ → ℚ := fun i j => a i j + b i j

/-- Line 439 of `Latte.__init__`: `extras = config.learn_sigma` — the
`extras` mode flag is copied verbatim from the configuration's
`learn_sigma` field at construction and stored on the module. -/
def latteExtras (learnSigma : ℕ) : ℕ := learnSigma

/-- The conditioning-vector selection inside the block loop
(lines 618–623 and identically 634–639 of `Latte.forward`):
`c = timestep + y` when `extras == 2`, `c = timestep + text_embedding`
when `extras == 78`, and the bare timestep embedding otherwise. -/
def condVec (extras : ℕ) (ts ys txts : ℕ → ℕ → ℚ) : ℕ → ℕ → ℚ :=
  if extras = 2 then addV ts ys
  else if extras = 78 then addV ts txts
  else ts

/-- The conditioning vector handed to the final layer (lines 647–650):
`c = timestep_spatial + y_spatial` when `extras == 2`, else the bare
`timestep_spatial` — note there is no `extras == 78` branch here. -/
def finalCond (extras : ℕ) (ts ys : ℕ → ℕ → ℚ) : ℕ → ℕ → ℚ :=
  if extras = 2 then addV ts ys else ts

/-- Claim C2: at every forward call the term added to the timestep
conditioning vector is determined solely by the `extras` mode stored at
construction (`latteExtras`), and the three modes are mutually
exclusive: exactly one of class-conditioned (`extras = 2`, label
embedding added), text-conditioned (`extras = 78`, text projection
added), or unconditional (nothing added) applies. -/
theorem c2_cond_mode : ∀ (ls : ℕ) (ts ys txts : ℕ → ℕ → ℚ),
    (latteExtras ls = 2 ∧ latteExtras ls ≠ 78 ∧
      condVec (latteExtras ls) ts ys txts = addV ts ys)
  ∨ (latteExtras ls = 78 ∧ latteExtras ls ≠ 2 ∧
      condVec (latteExtras ls) ts ys txts = addV ts txts)
  ∨ (latteExtras ls ≠ 2 ∧ latteExtras ls ≠ 78 ∧
      condVec (latteExtras ls) ts ys txts = ts) := by
  intro ls ts ys txts
  by_cases h2 : latteExtras ls = 2
  · exact Or.inl ⟨h2, by omega, by simp [condVec, h2]⟩
  · by_cases h78 : latteExtras ls = 78
    · exact Or.inr (Or.inl ⟨h78, by omega, by simp [condVec, h78, h2]⟩)
    · exact Or.inr (Or.inr ⟨h2, h78, by simp [condVec, h2, h78]⟩)

def c4ts : ℕ → ℕ → ℚ := fun _ _ => 3

def c4ys : ℕ → ℕ → ℚ := fun _ _ => 5

def c4txt : ℕ → ℕ → ℚ := fun _ _ => 7

/-- Claim C4, counterexample: in text-conditioned mode (`extras = 78`)
the conditioning vector passed to the Final Layer is NOT the timestep
embedding plus the text-embedding projection — at the concrete timestep
embedding `c4ts` and text projection `c4txt` the code passes `c4ts`
alone, which differs from `c4ts + c4txt`. -/
theorem c4_cex : finalCond 78 c4ts c4ys ≠ addV c4ts c4txt := by
  intro h
  have h0 := congrFun (congrFun h 0) 0
  norm_num [finalCond, addV, c4ts, c4txt] at h0

/-- Claim C4 (amended): after the last block pair the conditioning
vector passed to the Final Layer is the timestep embedding summed with
the label embedding in class-conditioned mode (`extras = 2`); in every
other mode — including text-conditioned mode (`extras = 78`) — it is
the timestep embedding alone, even though inside the block loop the
text projection is added. -/
theorem c4_amended : ∀ (ex : ℕ) (ts ys txts : ℕ → ℕ → ℚ),
    (ex = 2 → finalCond ex ts ys = addV ts ys)
  ∧ (ex ≠ 2 → finalCond ex ts ys = ts)
  ∧ (ex = 78 → finalCond ex ts ys = ts ∧ condVec ex ts ys txts = addV ts txts) := by
  intro ex ts ys txts
  refine ⟨fun h => by simp [finalCond, h], fun h => by simp [finalCond, h], fun h => ?_⟩
  subst h
  exact ⟨by simp [finalCond], by simp [condVec]⟩

/-- Witness for `c4_amended` at `extras = 78` with the concrete
conditioning tensors. -/
theorem c4_witness :
    (78 : ℕ) ≠ 2 ∧ finalCond 78 c4ts c4ys = c4ts ∧
      condVec 78 c4ts c4ys c4txt = addV c4ts c4txt :=
  ⟨by decide, (c4_amended 78 c4ts c4ys c4txt).2.1 (by decide),
    ((c4_amended 78 c4ts c4ys c4txt).2.2 rfl).2⟩

/-- Python errors the attention module can actually raise. -/
inductive PyErr where
  | assertionError : PyErr
  | nameError : PyErr
  | typeError : PyErr

/-- The construction-time arguments of `Attention` that matter for
error behaviour. -/
structure AttnCfg where
  dim : ℕ
  numHeads : ℕ
  attentionMode : String

/-- `Attention.__init__` (lines 49–89): the only thing that can fail is
`assert dim % num_heads == 0`; the `attention_mode` string is stored
without any validation and no backend-availability check happens at
construction.  Returns the derived `head_dim` on success. -/
def attnInit (cfg : AttnCfg) : Except PyErr ℕ :=
  if cfg.dim % cfg.numHeads = 0 then Except.ok (cfg.dim / cfg.numHeads)
  else Except.error PyErr.assertionError

/-- Whether an `Except` is a success. -/
def exceptOk {α : Type} (e : Except PyErr α) : Bool :=
  match e with
  | Except.ok _ => true
  | Except.error _ => false

/-- The five dispatch targets of `Attention.forward`. -/
inductive AttnPathK where
  | xformers : AttnPathK
  | flash : AttnPathK
  | math : AttnPathK
  | rebased : AttnPathK
  | ring : AttnPathK

def modeXformers : String := "xformers"

def modeFlash : String := "flash"

def modeMath : String := "math"

def modeRebased : String := "rebased"

def modeRing : String := "ring"

/-- The strategy names `Attention.forward` recognises. -/
def knownModes : List String :=
  [modeXformers, modeFlash, modeMath, modeRebased, modeRing]

/-- The string dispatch of `Attention.forward` (lines 107–142), run at
every forward call.  When the optional `rebased` backend failed to load
(lines 24–28 set only a flag, which is never consulted), the name
`parallel_rebased` is unbound and line 136 raises `NameError`; likewise
`ring_flash_attn_cuda` for `ring` (lines 30–34, 139).  An unrecognised
mode reaches `raise NotImplemented` (line 142), which in Python 3 raises
`TypeError` because `NotImplemented` is not an exception. -/
def attnSelectPath (mode : String) (rebasedAvail ringAvail : Bool) :
    Except PyErr AttnPathK :=
  if mode = modeXformers then Except.ok AttnPathK.xformers
  else if mode = modeFlash then Except.ok AttnPathK.flash
  else if mode = modeMath then Except.ok AttnPathK.math
  else if mode = modeRebased then
    (if rebasedAvail then Except.ok AttnPathK.rebased
     else Except.error PyErr.nameError)
  else if mode = modeRing then
    (if ringAvail then Except.ok AttnPathK.ring
     else Except.error PyErr.nameError)
  else Except.error PyErr.typeError

/-- A concrete configuration selecting `rebased`. -/
def c3cfg : AttnCfg := ⟨64, 8, modeRebased⟩

/-- A strategy name outside `knownModes`. -/
def c3unknown : String := "linear"

/-- Claim C3, counterexample: with the `rebased` backend unavailable,
constructing an `Attention` with `attention_mode = "rebased"` succeeds
(no `ConfigurationError`, no error at all), and the failure only
surfaces at the first forward call — as a `NameError`, not a
`ConfigurationError`. -/
theorem c3_cex :
    attnInit c3cfg = Except.ok 8 ∧
      attnSelectPath modeRebased false false = Except.error PyErr.nameError :=
  ⟨rfl, rfl⟩

/-- Claim C3 (amended): construction never validates the strategy name
or backend availability — any divisibility-respecting configuration
constructs successfully; selecting `rebased` (resp. `ring`) with its
backend unavailable raises `NameError` at the first forward call, and an
unknown strategy name raises `TypeError` (from `raise NotImplemented`)
at the first forward call.  No `ConfigurationError` exists in this
code. -/
theorem c3_amended : ∀ (cfg : AttnCfg) (ra ga : Bool),
    cfg.dim % cfg.numHeads = 0 →
    exceptOk (attnInit cfg) = true
  ∧ attnSelectPath modeRebased false ga = Except.error PyErr.nameError
  ∧ attnSelectPath modeRing ra false = Except.error PyErr.nameError
  ∧ (∀ s : String, s ∉ knownModes →
      attnSelectPath s ra ga = Except.error PyErr.typeError) := by
  intro cfg ra ga hdvd
  refine ⟨by simp [attnInit, exceptOk, hdvd], rfl, rfl, ?_⟩
  · intro s hs
    simp only [knownModes, List.mem_cons, List.not_mem_nil, or_false, not_or] at hs
    obtain ⟨h1, h2, h3, h4, h5⟩ := hs
    unfold attnSelectPath
    rw [if_neg h1, if_neg h2, if_neg h3, if_neg h4, if_neg h5]

/-- Witness for `c3_amended` at the concrete configuration `c3cfg`, the
unavailable-backend flags, and the unknown strategy name `"linear"`. -/
theorem c3_witness :
    (64 : ℕ) % 8 = 0 ∧ c3unknown ∉ knownModes ∧
      exceptOk (attnInit c3cfg) = true ∧
      attnSelectPath modeRebased false false = Except.error PyErr.nameError ∧
      attnSelectPath c3unknown false false = Except.error PyErr.typeError :=
  ⟨by decide, by decide, (c3_amended c3cfg false false (by decide)).1,
    (c3_amended c3cfg false false (by decide)).2.1,
    (c3_amended c3cfg false false (by decide)).2.2.2 c3unknown (by decide)⟩

/-- The learned parameters and head layout of `Attention`
(lines 49–89): `num_heads` heads of width `head_dim = dim // num_heads`,
the fused `qkv` linear map `dim → 3·dim`, the output projection
`dim → dim`, the softmax scale `head_dim ** -0.5` (kept symbolic, since
it is irrational for non-square head widths), and the dtype flag
consulted by `make_attn_bias` (`True` means the mask tensor is
float32). -/
structure AttnParams where
  heads : ℕ
  dh : ℕ
  scale : ℚ
  isF32 : Bool
  qkvW : ℕ → ℕ → ℚ
  qkvB : ℕ → ℚ
  projW : ℕ → ℕ → ℚ
  projB : ℕ → ℚ

/-- The pairwise attention mask of shape `(B, 1, N, N)` handed to
`Attention.forward`. -/
structure AttnMask where
  bdim : ℕ
  ndim : ℕ
  data : ℕ → ℕ → ℕ → ℚ

/-- `attn_mask.repeat(1, self.num_heads, 1, 1)` (line 96): the singleton
head axis is broadcast, so every head sees the same pairwise mask
(`.to(q.dtype)` is the identity in exact arithmetic). -/
def maskRepeat (m : AttnMask) : ℕ → ℕ → ℕ → ℕ → ℚ :=
  fun b _ i j => m.data b i j

/-- `Attention.make_attn_bias` (lines 148–153): entries where the mask
is 0 become `-1e8` when the mask dtype is float32 and `-1e4` otherwise;
entries where the mask is 1 become 0; any other entry keeps its mask
value. -/
def makeAttnBias (isF32 : Bool) (m : ℚ) : ℚ :=
  let b1 : ℚ := if m = 0 then (if isF32 then -(100000000 : ℚ) else -(10000 : ℚ)) else m
  if m = 1 then 0 else b1

/-- The `qkv` linear map applied to a `(B, N, C)` token tensor
(line 93, `C = heads * dh`). -/
def qkvOut (P : AttnParams) (x : ℕ → ℕ → ℕ → ℚ) : ℕ → ℕ → ℕ → ℚ :=
  fun b n j => (∑ i ∈ Finset.range (P.heads * P.dh), P.qkvW j i * x b n i) + P.qkvB j

/-- The query head tensor `q` of shape `(B, H, N, dh)` obtained from the
reshape/permute/unbind of lines 93–94: slot 0 of the fused projection. -/
def qProj (P : AttnParams) (x : ℕ → ℕ → ℕ → ℚ) : ℕ → ℕ → ℕ → ℕ → ℚ :=
  fun b h n d => qkvOut P x b n (h * P.dh + d)

/-- The key head tensor `k` (slot 1 of the fused projection). -/
def kProj (P : AttnParams) (x : ℕ → ℕ → ℕ → ℚ) : ℕ → ℕ → ℕ → ℕ → ℚ :=
  fun b h n d => qkvOut P x b n (P.heads * P.dh + h * P.dh + d)

/-- The value head tensor `v` (slot 2 of the fused projection). -/
def vProj (P : AttnParams) (x : ℕ → ℕ → ℕ → ℚ) : ℕ → ℕ → ℕ → ℕ → ℚ :=
  fun b h n d => qkvOut P x b n (2 * (P.heads * P.dh) + h * P.dh + d)

/-- The raw scaled dot-product scores `(q @ k.transpose(-2, -1)) * self.scale`
of the dense/softmax branch (line 124). -/
def mathScores (P : AttnParams) (x : ℕ → ℕ → ℕ → ℚ) : ℕ → ℕ → ℕ → ℕ → ℚ :=
  fun b h i j => (∑ d ∈ Finset.range P.dh, qProj P x b h i d * kProj P x b h j d) * P.scale

/-- Lines 125–127 of the dense branch: when a mask is present the raw
scores receive the additive bias `make_attn_bias(attn_mask)` pointwise;
with no mask they are passed on unchanged. -/
def mathBiased (P : AttnParams) (x : ℕ → ℕ → ℕ → ℚ) (mask : Option AttnMask) :
    ℕ → ℕ → ℕ → ℕ → ℚ :=
  match mask with
  | none => mathScores P x
  | some m => fun b h i j =>
      mathScores P x b h i j + makeAttnBias P.isF32 (maskRepeat m b h i j)

/-- `softmax(dim=-1)` over rows of length `N`, with the pointwise
exponential `e` supplied as a parameter (the torch primitive).  In exact
arithmetic no entry is NaN, so the defensive
`masked_fill(torch.isnan(attn), 0.)` of lines 129–131 is the
identity. -/
def softmaxWith (e : ℚ → ℚ) (N : ℕ) (s : ℕ → ℕ → ℕ → ℕ → ℚ) :
    ℕ → ℕ → ℕ → ℕ → ℚ :=
  fun b h i j => e (s b h i j) / ∑ l ∈ Finset.range N, e (s b h i l)

/-- The output projection `self.proj` (line 144; `self.proj_drop` and
`self.attn_drop` are dropout layers, the identity outside training). -/
def attnProj (P : AttnParams) (y : ℕ → ℕ → ℕ → ℚ) : ℕ → ℕ → ℕ → ℚ :=
  fun b n j => (∑ i ∈ Finset.range (P.heads * P.dh), P.projW j i * y b n i) + P.projB j

/-- The dense/softmax (`attention_mode == 'math'`) branch of
`Attention.forward` (lines 123–133) followed by the shared output
projection: bias the scores, softmax each row, weight the values, then
`transpose(1, 2).reshape(B, N, C)` (channel `c` of token `n` comes from
head `c / dh`, head-dim `c % dh`). -/
def mathAttn (P : AttnParams) (e : ℚ → ℚ) (N : ℕ) (x : ℕ → ℕ → ℕ → ℚ)
    (mask : Option AttnMask) : ℕ → ℕ → ℕ → ℚ :=
  attnProj P (fun b n c =>
    ∑ j ∈ Finset.range N,
      softmaxWith e N (mathBiased P x mask) b (c / P.dh) n j *
        vProj P x b (c / P.dh) j (c % P.dh))

/-- The type of the fused scaled-dot-product-attention primitive
`F.scaled_dot_product_attention` (an external torch kernel): it takes an
optional additive mask and the `(B, H, N, dh)` query/key/value tensors
and returns a `(B, H, N, dh)` tensor. -/
abbrev SdpaT : Type :=
  Option (ℕ → ℕ → ℕ → ℕ → ℚ) → (ℕ → ℕ → ℕ → ℕ → ℚ) → (ℕ → ℕ → ℕ → ℕ → ℚ) →
    (ℕ → ℕ → ℕ → ℕ → ℚ) → ℕ → ℕ → ℕ → ℕ → ℚ

/-- The fast-path test of the `flash` branch (line 114):
`attn_mask is None or torch.all(attn_mask.bool())` — the mask is absent
or every in-range entry is nonzero. -/
def flashUsesFast (mask : Option AttnMask) : Bool :=
  match mask with
  | none => true
  | some m => decide (∀ b < m.bdim, ∀ i < m.ndim, ∀ j < m.ndim, m.data b i j ≠ 0)

/-- The `.reshape(B, N, C)` applied directly to the `(B, H, N, dh)`
output of the fused kernel in the flash branch (lines 116–121; note
there is no transpose here, unlike the math branch). -/
def flashMerge (P : AttnParams) (N : ℕ) (y : ℕ → ℕ → ℕ → ℕ → ℚ) :
    ℕ → ℕ → ℕ → ℚ :=
  fun b n c =>
    y b ((n * (P.heads * P.dh) + c) / (N * P.dh))
      (((n * (P.heads * P.dh) + c) % (N * P.dh)) / P.dh)
      (((n * (P.heads * P.dh) + c) % (N * P.dh)) % P.dh)

/-- The fused-efficient (`attention_mode == 'flash'`) branch of
`Attention.forward` (lines 112–121) followed by the shared output
projection: if the mask is absent or all-nonzero, call the fused kernel
without a mask (flash fast path); otherwise fall back to the
memory-efficient fused call with the repeated mask. -/
def flashAttn (P : AttnParams) (sdpa : SdpaT) (N : ℕ) (x : ℕ → ℕ → ℕ → ℚ)
    (mask : Option AttnMask) : ℕ → ℕ → ℕ → ℚ :=
  if flashUsesFast mask then
    attnProj P (flashMerge P N (sdpa none (qProj P x) (kProj P x) (vProj P x)))
  else
    attnProj P (flashMerge P N
      (sdpa (Option.map maskRepeat mask) (qProj P x) (kProj P x) (vProj P x)))

/-- The all-ones pairwise mask of shape `(B, 1, N, N)`. -/
def onesMask (B N : ℕ) : AttnMask := ⟨B, N, fun _ _ _ => 1⟩

/-- A mask whose in-range entries are all 0 or 1 (the boolean
valid/padded masks of the data model). -/
def ZeroOne (m : AttnMask) : Prop :=
  ∀ b < m.bdim, ∀ i < m.ndim, ∀ j < m.ndim, m.data b i j = 0 ∨ m.data b i j = 1

/-- A mask whose in-range entries are all 1. -/
def AllOnes (m : AttnMask) : Prop :=
  ∀ b < m.bdim, ∀ i < m.ndim, ∀ j < m.ndim, m.data b i j = 1

instance (m : AttnMask) : Decidable (ZeroOne m) := by
  unfold ZeroOne; infer_instance

instance (m : AttnMask) : Decidable (AllOnes m) := by
  unfold AllOnes; infer_instance

/-- Claim C8: `make_attn_bias` maps mask entry 0 to `-1e8` in full
precision and to `-1e4` in reduced precision, maps mask entry 1 to bias
0, and in the dense strategy this bias is added pointwise to the raw
scaled dot-product scores (conjunct 4), with the softmax applied to the
biased scores (conjunct 5 exhibits the dense branch as the softmax of
`mathBiased` weighted against the values). -/
theorem c8_mask_bias :
    makeAttnBias true 0 = -(100000000 : ℚ)
  ∧ makeAttnBias false 0 = -(10000 : ℚ)
  ∧ (∀ fp : Bool, makeAttnBias fp 1 = 0)
  ∧ (∀ (P : AttnParams) (x : ℕ → ℕ → ℕ → ℚ) (m : AttnMask),
      mathBiased P x (some m) =
        fun b h i j => mathScores P x b h i j + makeAttnBias P.isF32 (m.data b i j))
  ∧ (∀ (P : AttnParams) (e : ℚ → ℚ) (N : ℕ) (x : ℕ → ℕ → ℕ → ℚ)
        (mask : Option AttnMask),
      mathAttn P e N x mask = attnProj P (fun b n c =>
        ∑ j ∈ Finset.range N,
          softmaxWith e N (mathBiased P x mask) b (c / P.dh) n j *
            vProj P x b (c / P.dh) j (c % P.dh))) := by
  refine ⟨by norm_num [makeAttnBias], by norm_num [makeAttnBias], fun fp => ?_,
    fun P x m => rfl, fun P e N x mask => rfl⟩
  norm_num [makeAttnBias]

/-- Claim C9: for every input and parameters, running the dense/softmax
branch and the fused-efficient branch with the all-ones mask yields
exactly the output of the unmasked run (conjuncts 1–2); the flash branch
takes the unmasked fast path when the mask is absent (conjunct 3), and
for 0/1-valued masks it takes the fast path exactly when the mask is
all-ones (conjunct 4). -/
theorem c9_mask_noop : ∀ (P : AttnParams) (e : ℚ → ℚ) (sdpa : SdpaT)
    (B N : ℕ) (x : ℕ → ℕ → ℕ → ℚ),
    mathAttn P e N x (some (onesMask B N)) = mathAttn P e N x none
  ∧ flashAttn P sdpa N x (some (onesMask B N)) = flashAttn P sdpa N x none
  ∧ flashUsesFast none = true
  ∧ (∀ m : AttnMask, ZeroOne m → (flashUsesFast (some m) = true ↔ AllOnes m)) := by
  intro P e sdpa B N x
  have hbias : mathBiased P x (some (onesMask B N)) = mathBiased P x none := by
    funext b h i j
    simp [mathBiased, onesMask, maskRepeat, makeAttnBias]
  have hfast : flashUsesFast (some (onesMask B N)) = true := by
    simp only [flashUsesFast, onesMask, decide_eq_true_eq]
    intro b _ i _ j _
    exact one_ne_zero
  refine ⟨by simp only [mathAttn, hbias], ?_, rfl, fun m hm => ?_⟩
  · have hnone : flashUsesFast (none : Option AttnMask) = true := rfl
    simp [flashAttn, hfast, hnone]
  · simp only [flashUsesFast, decide_eq_true_eq]
    constructor
    · intro hall b hb i hi j hj
      rcases hm b hb i hi j hj with h0 | h1
      · exact absurd h0 (hall b hb i hi j hj)
      · exact h1
    · intro hone b hb i hi j hj
      rw [hone b hb i hi j hj]
      exact one_ne_zero

/-- Concrete attention parameters: one head of width one. -/
def c9P : AttnParams := ⟨1, 1, 1, true, fun _ _ => 1, fun _ => 0, fun _ _ => 1, fun _ => 0⟩

/-- A concrete constant token tensor. -/
def c9x : ℕ → ℕ → ℕ → ℚ := fun _ _ _ => 1

/-- A concrete fused kernel (the theorem holds for every kernel). -/
def cSdpa : SdpaT := fun _ _ _ _ => fun _ _ _ _ => 0

/-- A concrete boolean all-ones mask of shape `(1, 1, 1, 1)`. -/
def c9m : AttnMask := ⟨1, 1, fun _ _ _ => 1⟩

/-- Witness for `c9_mask_noop` at concrete parameters, input, kernel and
mask. -/
theorem c9_witness :
    ZeroOne c9m ∧ (flashUsesFast (some c9m) = true ↔ AllOnes c9m) ∧
      mathAttn c9P id 1 c9x (some (onesMask 1 1)) = mathAttn c9P id 1 c9x none ∧
      flashAttn c9P cSdpa 1 c9x (some (onesMask 1 1)) = flashAttn c9P cSdpa 1 c9x none :=
  ⟨by decide, (c9_mask_noop c9P id cSdpa 1 1 c9x).2.2.2 c9m (by decide),
    (c9_mask_noop c9P id cSdpa 1 1 c9x).1, (c9_mask_noop c9P id cSdpa 1 1 c9x).2.1⟩

/-- `modulate(x, shift, scale) = x * (1 + scale.unsqueeze(1)) + shift.unsqueeze(1)`
(lines 41–42): `x` is `(B, N, C)`, shift/scale are `(B, C)` and broadcast
over the token axis. -/
def modulate (x : ℕ → ℕ → ℕ → ℚ) (shift scale : ℕ → ℕ → ℚ) : ℕ → ℕ → ℕ → ℚ :=
  fun b n i => x b n i * (1 + scale b i) + shift b i

/-- The parameters of `FinalLayer` (lines 400–411): the linear
projection `hidden_size → patch_volume · out_channels` and the last
linear layer of its `adaLN_modulation` head `hidden_size → 2 · hidden_size`
(its preceding SiLU is parameter-free). -/
structure FLParams where
  inDim : ℕ
  outW : ℕ
  linW : ℕ → ℕ → ℚ
  linB : ℕ → ℚ
  adaW : ℕ → ℕ → ℚ
  adaB : ℕ → ℚ

/-- The zero state produced by `Latte.initialize_weights` for the final
layer (lines 541–544): both the `adaLN_modulation` output layer and the
final linear projection have all-zero weights and biases. -/
def ZeroFL (p : FLParams) : Prop :=
  (∀ j i, p.linW j i = 0) ∧ (∀ j, p.linB j = 0) ∧
    (∀ j i, p.adaW j i = 0) ∧ (∀ j, p.adaB j = 0)

/-- `FinalLayer.forward` (lines 413–417): `adaLN_modulation(c)` (SiLU then
linear) is chunked into shift and scale, the parameter-free layer norm of
`x` is modulated, and the result goes through the final linear
projection.  `silu` and `lnorm` are the external torch primitives. -/
def finalLayer (p : FLParams) (silu : ℚ → ℚ) (lnorm : (ℕ → ℚ) → ℕ → ℚ)
    (x : Tens3) (cond : ℕ → ℕ → ℚ) : Tens3 :=
  let ada : ℕ → ℕ → ℚ := fun b j =>
    (∑ i ∈ Finset.range p.inDim, p.adaW j i * silu (cond b i)) + p.adaB j
  let shift : ℕ → ℕ → ℚ := fun b i => ada b i
  let scale : ℕ → ℕ → ℚ := fun b i => ada b (p.inDim + i)
  let xmod := modulate (fun b n i => lnorm (fun j => x.data b n j) i) shift scale
  ⟨x.n, x.t, p.outW, fun b n w =>
    (∑ i ∈ Finset.range p.inDim, p.linW w i * xmod b n i) + p.linB w⟩

/-- `Latte.unpatchify` (lines 546–559): sets `h = w = int(sqrt(tokens))`,
asserts `h * w == tokens`, reshapes the per-token channel axis into
`(h, w, p, p, c)` (which requires the token width to be `p · p · c`) and
rebuilds an image of height `h·p` and width `h·p` — the HEIGHT count is
used for both output axes (line 558).  Output pixel `(ch, i, j)` of
image `n` reads token `(i / p) · h + j / p`, intra-patch offset
`((i % p) · p + j % p) · c + ch`. -/
def unpatchifyD (outC patch : ℕ) (x : Tens3) : Option Tens4 :=
  if Nat.sqrt x.t * Nat.sqrt x.t = x.t ∧ x.d = patch * patch * outC then
    some ⟨x.n, outC, Nat.sqrt x.t * patch, Nat.sqrt x.t * patch,
      fun n ch i j =>
        x.data n ((i / patch) * Nat.sqrt x.t + j / patch)
          (((i % patch) * patch + j % patch) * outC + ch)⟩
  else none

/-- `rearrange(x, '(b f) c h w -> b f c h w', b=batches)` (line 653):
einops requires the merged axis to split evenly by `b`. -/
def rearrange45 (b : ℕ) (x : Tens4) : Option Tens5 :=
  if b ≠ 0 ∧ x.n % b = 0 then
    some ⟨b, x.n / b, x.c, x.h, x.w,
      fun bi fi c i j => x.data (bi * (x.n / b) + fi) c i j⟩
  else none

/-- The tail of `Latte.forward` (lines 651–655): final layer, unpatchify,
batch/frame split.  The patch embedding, positional tables and the block
loop (lines 588–650) are abstracted as `body`, an arbitrary function
from the input video to the pre-final hidden state and the final
conditioning vector — every claim proved for all `body` holds in
particular for the real backbone. -/
def latteForward (body : Tens5 → Tens3 × (ℕ → ℕ → ℚ)) (p : FLParams)
    (silu : ℚ → ℚ) (lnorm : (ℕ → ℚ) → ℕ → ℚ) (outC patch : ℕ)
    (x : Tens5) : Option Tens5 :=
  (unpatchifyD outC patch (finalLayer p silu lnorm (body x).1 (body x).2)).bind
    (rearrange45 x.b)

/-- A 5-D tensor that is zero everywhere. -/
def IsZero5 (t : Tens5) : Prop := ∀ b f c i j, t.data b f c i j = 0

/-- Claim C5: `modulate(v, 0, 0) = v` for every `v` (first conjunct), and
with the final layer in its freshly-initialized all-zero state the
backbone's output is exactly zero for every input, every timestep and
every conditioning signal — i.e. for every `body` — whenever the forward
pass completes (second conjunct). -/
theorem c5_zero_init :
    (∀ x : ℕ → ℕ → ℕ → ℚ, modulate x (fun _ _ => 0) (fun _ _ => 0) = x)
  ∧ (∀ (body : Tens5 → Tens3 × (ℕ → ℕ → ℚ)) (p : FLParams) (silu : ℚ → ℚ)
      (lnorm : (ℕ → ℚ) → ℕ → ℚ) (outC patch : ℕ) (x : Tens5) (out : Tens5),
      ZeroFL p → latteForward body p silu lnorm outC patch x = some out →
        IsZero5 out) := by
  constructor
  · intro x
    funext b n i
    simp [modulate]
  · intro body p silu lnorm outC patch x out hz heq b f c i j
    obtain ⟨h1, h2, _, _⟩ := hz
    have hfl : ∀ bb nn ww,
        (finalLayer p silu lnorm (body x).1 (body x).2).data bb nn ww = 0 := by
      intro bb nn ww
      simp [finalLayer, h1, h2]
    unfold latteForward at heq
    cases hu : unpatchifyD outC patch (finalLayer p silu lnorm (body x).1 (body x).2) with
    | none =>
      rw [hu] at heq
      exact absurd heq (by simp)
    | some y =>
      rw [hu] at heq
      replace heq : rearrange45 x.b y = some out := heq
      have hy : ∀ nn cc ii jj, y.data nn cc ii jj = 0 := by
        intro nn cc ii jj
        unfold unpatchifyD at hu
        split at hu
        · cases hu
          exact hfl _ _ _
        · exact absurd hu (by simp)
      unfold rearrange45 at heq
      split at heq
      · cases heq
        exact hy _ _ _ _
      · exact absurd heq (by simp)

/-- Concrete zero-initialized final-layer parameters (hidden width 1,
output width 1). -/
def c5p : FLParams := ⟨1, 1, fun _ _ => 0, fun _ => 0, fun _ _ => 0, fun _ => 0⟩

/-- A concrete backbone body: one token of hidden width 1 per the single
batch·frame row, with nonzero hidden state and conditioning. -/
def c5body : Tens5 → Tens3 × (ℕ → ℕ → ℚ) :=
  fun _ => (⟨1, 1, 1, fun _ _ _ => 37⟩, fun _ _ => 5)

/-- A concrete nonzero input video of shape (1, 1, 1, 1, 1). -/
def c5x : Tens5 := ⟨1, 1, 1, 1, 1, fun _ _ _ _ _ => 3⟩

/-- The output of `latteForward` on the concrete zero-initialized run. -/
def c5out : Tens5 :=
  (latteForward c5body c5p id id 1 1 c5x).getD ⟨0, 0, 0, 0, 0, fun _ _ _ _ _ => 0⟩

/-- The concrete zero-initialized run completes and produces `c5out`. -/
theorem c5_out_eq : latteForward c5body c5p id id 1 1 c5x = some c5out := rfl

/-- Witness for `c5_zero_init` at the concrete zero-initialized run. -/
theorem c5_witness : ZeroFL c5p ∧ IsZero5 c5out :=
  ⟨⟨fun _ _ => rfl, fun _ => rfl, fun _ _ => rfl, fun _ => rfl⟩,
    c5_zero_init.2 c5body c5p id id 1 1 c5x c5out
      ⟨fun _ _ => rfl, fun _ => rfl, fun _ _ => rfl, fun _ => rfl⟩ c5_out_eq⟩

/-- A concrete token tensor with a single token (a 1×1 grid) of width 1. -/
def c10x : Tens3 := ⟨1, 1, 1, fun _ _ _ => 2⟩

/-- Claim C10: `unpatchify` succeeds only when the per-frame token count
is a perfect square (`h = w = floor(sqrt(tokens))` with
`assert h * w == tokens`), fails otherwise, and on success reconstructs
a SQUARE image whose height and width both equal `h · patch` — the
height count is used for both output axes. -/
theorem c10_unpatchify : ∀ (outC patch : ℕ) (x : Tens3),
    ((∃ y, unpatchifyD outC patch x = some y) →
      Nat.sqrt x.t * Nat.sqrt x.t = x.t)
  ∧ (¬ Nat.sqrt x.t * Nat.sqrt x.t = x.t → unpatchifyD outC patch x = none)
  ∧ (∀ y, unpatchifyD outC patch x = some y →
      y.c = outC ∧ y.h = Nat.sqrt x.t * patch ∧ y.w = Nat.sqrt x.t * patch ∧
        y.h = y.w) := by
  intro outC patch x
  refine ⟨fun ⟨y, hy⟩ => ?_, fun hn => ?_, fun y hy => ?_⟩
  · unfold unpatchifyD at hy
    split at hy
    · next hc => exact hc.1
    · exact absurd hy (by simp)
  · unfold unpatchifyD
    rw [if_neg (fun hc => hn hc.1)]
  · unfold unpatchifyD at hy
    split at hy
    · cases hy
      exact ⟨rfl, rfl, rfl, rfl⟩
    · exact absurd hy (by simp)

/-- Witness for `c10_unpatchify` at the concrete token grid: the
success hypothesis is discharged by evaluation, and the token count is
confirmed a perfect square. -/
theorem c10_witness : Nat.sqrt c10x.t * Nat.sqrt c10x.t = c10x.t :=
  (c10_unpatchify 1 1 c10x).1
    ⟨(unpatchifyD 1 1 c10x).getD ⟨0, 0, 0, 0, fun _ _ _ _ => 0⟩, by rfl⟩
